import Mathlib

/-!
Verification of the parsing core of a small scripting-language front end.

The source under scrutiny is `src/lib/parser.rs` and `src/lib/action.rs`.
The parser state is the pair of the immutable byte buffer (modelled as a
`List Char`, matching the source's byte-as-character reads) and the mutable
cursor index; all functions thread the index explicitly.  Fallible parsing
steps return `Except ParsingErrorType`, and the mutually recursive action
parser is additionally fuel-indexed (`Option` layer, `none` = out of fuel),
which keeps every definition structurally recursive and executable.

External collaborators whose sources are not available (NameBuilder, the
string-literal parser, the statement-sequence parser `ParseActions`, the
variable-declaration parser `parse_var`, `legal_name_char`) are modelled from
the specification; each such definition carries a doc comment starting with
`Modelled from the spec:`.
-/

namespace GPL

/-- Error kinds (`ParsingErrorType` in the source). -/
inductive ParsingErrorType where
  | unexpectedChar
  | unexpectedEOF
  | unexpectedResult
  | custom (msg : String)
  deriving DecidableEq, Repr

/-- `CodeLocation` (parser.rs lines 246-251). -/
structure CodeLocation where
  fileName : Option String
  x : Nat
  y : Nat
  deriving DecidableEq, Repr

/-- The assembled diagnostic (`ParsingError` in the source): error kind plus
line/column location and the previous/current/next source lines. -/
structure ParsingError where
  location : CodeLocation
  errorType : ParsingErrorType
  prevLine : Option String
  line : String
  nextLine : Option String
  deriving DecidableEq, Repr

/-- Parsing context (`ActionToExpect` in action.rs lines 94-104). -/
inductive ActionToExpect where
  | actionInBody
  | assignment (validUnexpectedChars : String)
  deriving DecidableEq, Repr

/-- Result class of the generic scan (`DetectedAction` in action.rs lines 106-117). -/
inductive DetectedAction where
  | varRefName
  | assignment
  | function
  deriving DecidableEq, Repr

/-- `LoopType` (action.rs lines 119-123). -/
inductive LoopType where
  | forL
  | whileL
  | loopL
  deriving DecidableEq, Repr

/-- Mutability flag of a variable declaration (`VarType` of the source's
variable parser). -/
inductive VarType where
  | constV
  | letV
  deriving DecidableEq, Repr

/-- The Action AST (action.rs lines 3-18).  The payload structs
`ActionAssigment`, `ActionFunctionCall`, `ActionFor`, `ActionWhile` and the
external `Variable` struct are inlined as constructor arguments.  Number
literals keep their raw text (the external number parser is out of scope). -/
inductive Action where
  | varDecl (name : String) (varType : VarType) (typeName : Option String) (value : Action)
  | ret (action : Option Action)
  | assigment (name : String) (action : Action)
  | functionCall (name : String) (arguments : List Action)
  | varRef (name : String)
  | staticString (s : String)
  | staticNumber (raw : String)
  | brk
  | cont
  | forLoop (itemName : String) (list : Action) (actions : List Action)
  | whileLoop (trueValue : Action) (actions : List Action)
  | loop (actions : List Action)
  | noop

/-- Builder-intermediate states (`ParseActionState`, action.rs lines 50-60). -/
inductive ParseActionState where
  | retState (action : Option Action)
  | assigmentState (name : String) (action : Option Action)
  | functionCallState (name : String) (arguments : List Action)
  | varRefState (name : String)
  | breakState
  | continueState
  | forState (itemName : String) (list : Action) (actions : List Action)
  | whileState (trueValue : Action) (actions : List Action)
  | loopState (actions : List Action)

/-- `ParseAction::commit_state` (action.rs lines 181-216): freeze a builder
state into a final `Action`.  An assignment state with no value action is the
hard error `Custom "Missing variable assignment"`. -/
def commitState : ParseActionState → Except ParsingErrorType Action
  | .retState a => .ok (.ret a)
  | .assigmentState name act =>
    match act with
    | none => .error (.custom "Missing variable assignment")
    | some a => .ok (.assigment name a)
  | .functionCallState n args => .ok (.functionCall n args)
  | .varRefState n => .ok (.varRef n)
  | .breakState => .ok .brk
  | .continueState => .ok .cont
  | .whileState tv acts => .ok (.whileLoop tv acts)
  | .forState nm l acts => .ok (.forLoop nm l acts)
  | .loopState acts => .ok (.loop acts)

/-- The whitespace set `" \t\n"` used throughout the source. -/
def wsChars : List Char := [' ', '\t', '\n']

/-- Fuel-indexed core of `Parser::next_while` (parser.rs lines 119-126).
The wrapper `nextWhile` instantiates the fuel with the number of characters
left, which makes the two equivalent. -/
def nextWhileAux (cs skip : List Char) : Nat → Nat → Option Char × Nat
  | 0, i => (none, i)
  | k+1, i =>
    match cs[i]? with
    | none => (none, i)
    | some c => if c ∈ skip then nextWhileAux cs skip k (i+1) else (some c, i+1)

/-- `Parser::next_while`: consume characters belonging to `skip`; return the
first character not in `skip` (consumed) together with the new cursor, or
`none` at end of input. -/
def nextWhile (cs skip : List Char) (i : Nat) : Option Char × Nat :=
  nextWhileAux cs skip (cs.length - i) i

/-- Last-insertion-wins lookup, mirroring the `HashMap` built by
`Parser::try_match` (a later `insert` with the same key overwrites). -/
def lookupLast (m : List (String × String)) (k : String) : Option String :=
  match m with
  | [] => none
  | (k₁, v) :: rest =>
    match lookupLast rest k with
    | some v₁ => some v₁
    | none => if k₁ = k then some v else none

/-- One round of `Parser::try_match`'s candidate narrowing (the `for option in
options_vec` loop, parser.rs lines 153-178) at match depth `charCount`, after
consuming character `c` (the cursor now being `iNext`).  `.inl opt` is the
early `return Some(option)`; `.inr vec` is the surviving `new_options_vec`. -/
def tryMatchStep (sm : List (String × String)) (cs : List Char) (iNext charCount : Nat)
    (c : Char) : List String → Sum String (List String)
  | [] => .inr []
  | opt :: rest =>
    if opt.length ≤ charCount then tryMatchStep sm cs iNext charCount c rest
    else
      match opt.data[charCount]? with
      | none => tryMatchStep sm cs iNext charCount c rest
      | some fc =>
        if fc = c then
          if opt.length ≠ charCount + 1 then
            match tryMatchStep sm cs iNext charCount c rest with
            | .inl m => .inl m
            | .inr vec => .inr (opt :: vec)
          else
            match lookupLast sm opt with
            | none => .inl opt
            | some suf =>
              match cs[iNext]? with
              | none => tryMatchStep sm cs iNext charCount c rest
              | some nc =>
                if nc ∈ suf.data then .inl opt
                else tryMatchStep sm cs iNext charCount c rest
        else tryMatchStep sm cs iNext charCount c rest

/-- Fuel-indexed main loop of `Parser::try_match` (parser.rs lines 150-188).
On a round that leaves no live candidate the source executes
`self.index -= char_count` — which does not count the character consumed in
that failing round.  The wrapper supplies exact fuel. -/
def tryMatchLoopAux (sm : List (String × String)) (cs : List Char) :
    Nat → List String → Nat → Nat → Option String × Nat
  | 0, _, charCount, i => (none, i - charCount)
  | k+1, optionsVec, charCount, i =>
    match cs[i]? with
    | none => (none, i - charCount)
    | some c =>
      match tryMatchStep sm cs (i+1) charCount c optionsVec with
      | .inl m => (some m, i + 1)
      | .inr [] => (none, (i + 1) - charCount)
      | .inr (v :: vec) => tryMatchLoopAux sm cs k (v :: vec) (charCount + 1) (i + 1)

/-- `Parser::try_match` (parser.rs lines 132-189): match one of the candidate
`(keyword, legal-suffix-set)` pairs against the input at cursor `i`; returns
the matched candidate (suffix character unconsumed) and the new cursor. -/
def tryMatch (options : List (String × String)) (cs : List Char) (i : Nat) :
    Option String × Nat :=
  if options.length = 0 then (none, i)
  else
    let optionsVec := (options.filter (fun o => o.1.length ≠ 0)).map (fun o => o.1)
    let sm := options.filter (fun o => o.1.length ≠ 0 ∧ o.2.length ≠ 0)
    tryMatchLoopAux sm cs (cs.length - i) optionsVec 0 i

/-- First forward scan of `Parser::custom_error` (parser.rs lines 36-53):
walk the buffer, stopping at `useIndex`, tracking the 1-based line number, the
tab-normalized column, the previous completed line and the bytes of the
current line.  Carriage returns are skipped entirely. -/
def firstScan (useIndex : Nat) :
    List Char → Nat → Nat → Nat → Option (List Char) → List Char →
    Nat × Nat × Option (List Char) × List Char
  | [], _, ln, col, prev, cur => (ln, col, prev, cur)
  | c :: rest, i, ln, col, prev, cur =>
    if i = useIndex then (ln, col, prev, cur)
    else if c = '\n' then firstScan useIndex rest (i+1) (ln+1) 0 (some cur) []
    else if c = '\r' then firstScan useIndex rest (i+1) ln col prev cur
    else firstScan useIndex rest (i+1) ln (col + (if c = '\t' then 2 else 1)) prev (cur ++ [c])

/-- Second forward scan of `Parser::custom_error` (parser.rs lines 60-80):
starting at the error offset, finish accumulating the current line and collect
the following line, stopping at the second newline. -/
def secondScan : List Char → Option (List Char) → List Char → Option (List Char) × List Char
  | [], nextB, cur => (nextB, cur)
  | c :: rest, nextB, cur =>
    if c = '\n' then
      match nextB with
      | some l => (some l, cur)
      | none => secondScan rest (some []) cur
    else if c = '\r' then secondScan rest nextB cur
    else
      match nextB with
      | some l => secondScan rest (some (l ++ [c])) cur
      | none => secondScan rest nextB (cur ++ [c])

/-- The diagnostic assembly of `Parser::custom_error` (parser.rs lines 31-98)
as a pure function of the buffer and the already-resolved error offset. -/
def customErrorCore (contents : List Char) (useIndex : Nat)
    (errorType : ParsingErrorType) : ParsingError :=
  let fs := firstScan useIndex contents 0 1 1 none []
  let ss := secondScan (contents.drop useIndex) none fs.2.2.2
  { location := { fileName := none, y := fs.1, x := fs.2.1 }
    errorType := errorType
    prevLine := (fs.2.2.1).map (fun bs => String.mk bs)
    line := String.mk ss.2
    nextLine := ss.1.map (fun bs => String.mk bs) }

/-- Offset resolution of `Parser::custom_error` (parser.rs lines 26-30): an
explicit offset is used as given; otherwise the default is `self.index - 1`.
The result `none` models the `usize` underflow panic of that subtraction when
the cursor index is 0. -/
def resolveErrorIndex (fileCharNumber : Option Nat) (index : Nat) : Option Nat :=
  match fileCharNumber with
  | some i => some i
  | none => if index = 0 then none else some (index - 1)

/-- `Parser::parse_nothing` (parser.rs lines 197-209) together with
`Parser::expect_next` (lines 190-196), fuel-indexed.  The external
function-signature parser `ParseFunction::start` is abstracted as the
parameter `fnP`, which consumes the input positioned just after `fn` and
returns a parsed function together with the remaining input.  The top-level
scan ignores every character except `'f'`; after an `'f'` the next character
must be `'n'` (`expect_next`), else the parse fails. -/
def parseNothingAux {F : Type} (fnP : List Char → Except ParsingErrorType (F × List Char)) :
    Nat → List Char → List F → Option (Except ParsingErrorType (List F))
  | _, [], fns => some (.ok fns)
  | 0, _ :: _, _ => none
  | fuel+1, c :: rest, fns =>
    if c = 'f' then
      match rest with
      | [] => some (.error .unexpectedEOF)
      | c₂ :: rest₂ =>
        if c₂ = 'n' then
          match fnP rest₂ with
          | .error e => some (.error e)
          | .ok (fn, rem) => parseNothingAux fnP fuel rem (fns ++ [fn])
        else some (.error .unexpectedChar)
    else parseNothingAux fnP fuel rest fns

/-- `Parser::parse` restricted to its top-level scan: run `parse_nothing` on a
whole buffer with an initially empty function list. -/
def parseNothingRun {F : Type} (fnP : List Char → Except ParsingErrorType (F × List Char))
    (cs : List Char) : Option (Except ParsingErrorType (List F)) :=
  parseNothingAux fnP cs.length cs []

/-- Modelled from the spec: `legal_name_char` (the identifier-character test
used by the generic scan and the `for`-name scan; §4.3 of the spec names
letters, digits and underscore — `'.'` is handled separately at the call
site in `detect`). -/
def legalNameChar (c : Char) : Bool :=
  c.isAlpha || c.isDigit || c = '_'

/-- Modelled from the spec: `NameBuilder::is_number` — whether the accumulated
characters form a numeric literal (integer or float); literals containing any
other character are identifiers (§4.3 step 4, §6 "NameBuilder"). -/
def nameIsNumber (name : List Char) : Bool :=
  name ≠ [] && name.all (fun c => c.isDigit || c = '.') && name.any Char.isDigit

/-- Modelled from the spec: the external string-literal parser
`parse_static_str` (§6), entered with the cursor just after the opening
quote; a backslash escapes the next character; end of input is a hard error.
Fuel-indexed with exact fuel supplied by `parseStaticStr`. -/
def parseStaticStrAux (cs : List Char) :
    Nat → Nat → List Char → Except ParsingErrorType (String × Nat)
  | 0, _, _ => .error .unexpectedEOF
  | k+1, i, acc =>
    match cs[i]? with
    | none => .error .unexpectedEOF
    | some c =>
      if c = '"' then .ok (String.mk acc, i + 1)
      else if c = '\\' then
        match cs[i+1]? with
        | none => .error .unexpectedEOF
        | some e => parseStaticStrAux cs k (i+2) (acc ++ [e])
      else parseStaticStrAux cs k (i+1) (acc ++ [c])

/-- Modelled from the spec: wrapper of `parseStaticStrAux` with exact fuel. -/
def parseStaticStr (cs : List Char) (i : Nat) : Except ParsingErrorType (String × Nat) :=
  parseStaticStrAux cs (cs.length - i) i []

/-- The `expect` helper used by `parse_looper` for the literal `in` token.
Its body is the commented-out `Parser::expect` of parser.rs lines 215-226:
each expected character must be matched exactly by the next input character. -/
def expectStr (cs : List Char) : List Char → Nat → Except ParsingErrorType Nat
  | [], i => .ok i
  | e :: rest, i =>
    match cs[i]? with
    | none => .error .unexpectedEOF
    | some v => if v = e then expectStr cs rest (i+1) else .error .unexpectedChar

/-- The `for`-item-name scan of `parse_looper` (action.rs lines 428-436):
read characters until whitespace (consumed), accepting only legal name
characters.  Fuel-indexed with exact fuel supplied by the caller. -/
def forNameScan (cs : List Char) :
    Nat → Nat → List Char → Except ParsingErrorType (List Char × Nat)
  | 0, _, _ => .error .unexpectedEOF
  | k+1, i, name =>
    match cs[i]? with
    | none => .error .unexpectedEOF
    | some c =>
      if c = ' ' ∨ c = '\t' ∨ c = '\n' then .ok (name, i + 1)
      else if legalNameChar c then forNameScan cs k (i+1) (name ++ [c])
      else .error .unexpectedChar

/-- Outcome of the generic scan loop of `ParseAction::detect`. -/
inductive ScanRes where
  | stringLit (i : Nat)
  | done (da : DetectedAction) (name : List Char) (i : Nat)
  | scanErr (e : ParsingErrorType)

/-- The generic scan loop of `ParseAction::detect` (action.rs lines 276-320),
fuel-indexed (exact fuel supplied by `scanLoop`): accumulate a name until a
decision character is met.  `'"'` with an empty name hands off to the string
parser; whitespace after at least one character completes the name; `'('`
selects a function call, `'='` an assignment; any other character ends the
scan as a bare reference when the name is complete or when it belongs to the
`Assignment` context's terminator set (restored to the cursor), and is a hard
error otherwise. -/
def scanLoopAux (cs : List Char) (ctx : ActionToExpect) :
    Nat → Nat → List Char → Bool → ScanRes
  | 0, i, name, _ => .done .varRefName name i
  | k+1, i, name, nameCompleted =>
    match cs[i]? with
    | none => .done .varRefName name i
    | some c =>
      if c = '"' ∧ name = [] then .stringLit (i + 1)
      else if c = ' ' ∨ c = '\t' ∨ c = '\n' then
        scanLoopAux cs ctx k (i+1) name (if name.length > 0 then true else nameCompleted)
      else if c = '(' then .done .function name (i + 1)
      else if c = '=' then .done .assignment name (i + 1)
      else if (legalNameChar c || c = '.') && !nameCompleted then
        scanLoopAux cs ctx k (i+1) (name ++ [c]) nameCompleted
      else if nameCompleted then .done .varRefName name ((i + 1) - 1)
      else
        match ctx with
        | .assignment validUnexpectedChars =>
          if c ∈ validUnexpectedChars.data then .done .varRefName name ((i + 1) - 1)
          else .scanErr .unexpectedChar
        | .actionInBody => .scanErr .unexpectedChar

/-- Wrapper of `scanLoopAux` with exact fuel. -/
def scanLoop (cs : List Char) (ctx : ActionToExpect) (i : Nat) : ScanRes :=
  scanLoopAux cs ctx (cs.length - i) i [] false

/-- The keyword table `detect` hands to `try_match` in `ActionInBody` context
(action.rs lines 220-228).  Note that it has seven entries: `continue` is
absent, although `detect`'s dispatch has an arm for it. -/
def bodyKeywordTable : List (String × String) :=
  [("const", " \t\n"), ("let", " \t\n"), ("return", "\x7d \t\n"),
   ("loop", "\x7b \t\n"), ("while", " \t\n"), ("for", "\x7d \t\n"),
   ("break", "\x7d \t\n")]

/-- Bind through the `Option (Except _ _)` stack of the fuel-indexed parser. -/
def obind {α β : Type} (x : Option (Except ParsingErrorType α))
    (f : α → Option (Except ParsingErrorType β)) : Option (Except ParsingErrorType β) :=
  match x with
  | none => none
  | some (.error e) => some (.error e)
  | some (.ok a) => f a

/-- Lift a fallible result into the fuel-indexed parser stack. -/
def olift {α : Type} (x : Except ParsingErrorType α) : Option (Except ParsingErrorType α) :=
  some x

/-- The `Into<LoopType>` conversion for matched keywords (action.rs lines
125-133): `for` and `while` map to their loop kinds, everything else to
`Loop`. -/
def loopTypeOfKw (kw : String) : LoopType :=
  if kw = "for" then .forL else if kw = "while" then .whileL else .loopL

/-- Assembly of the final loop state (action.rs lines 461-472); a missing
`for`-item name defaults to the empty string (`unwrap_or`). -/
def assembleLoopState (lt : LoopType) (itemName : Option String) (basedOn : Action)
    (acts : List Action) : ParseActionState :=
  match lt with
  | .forL => .forState (itemName.getD "") basedOn acts
  | .whileL => .whileState basedOn acts
  | .loopL => .loopState acts

/-- Name scan of the modelled variable-declaration parser: accumulate legal
name characters, leaving the terminating character unconsumed. -/
def varNameScan (cs : List Char) : Nat → Nat → List Char → List Char × Nat
  | 0, i, name => (name, i)
  | k+1, i, name =>
    match cs[i]? with
    | none => (name, i)
    | some c => if legalNameChar c then varNameScan cs k (i+1) (name ++ [c]) else (name, i)

mutual

/-- `ParseAction::start` (action.rs lines 161-180): optionally step the cursor
back one character, then run `detect`.  (The `UnexpectedResult` fallback for a
missing result is unreachable: every `Ok` path of `detect` commits a result.) -/
def startAction : Nat → List Char → Bool → ActionToExpect → Nat →
    Option (Except ParsingErrorType (Action × Nat))
  | 0, _, _, _, _ => none
  | fuel+1, cs, goBackOne, ctx, i => detect fuel cs ctx (if goBackOne then i - 1 else i)

termination_by structural fuel => fuel

/-- `ParseAction::detect` (action.rs lines 218-346): in `ActionInBody` context
first attempt the keyword table, dispatching on a match; otherwise (or when no
keyword matches) run the generic scan and commit the detected action kind. -/
def detect : Nat → List Char → ActionToExpect → Nat →
    Option (Except ParsingErrorType (Action × Nat))
  | 0, _, _, _ => none
  | fuel+1, cs, ctx, i =>
    let mr :=
      match ctx with
      | .actionInBody => tryMatch bodyKeywordTable cs i
      | .assignment _ => (none, i)
    match mr with
    | (some kw, i₁) =>
      if kw = "const" then parseVar fuel cs .constV i₁
      else if kw = "let" then parseVar fuel cs .letV i₁
      else if kw = "return" then
        obind (parseReturn fuel cs i₁) fun st =>
          olift ((commitState st.1).map (fun a => (a, st.2)))
      else if kw = "loop" ∨ kw = "while" ∨ kw = "for" then
        obind (parseLooper fuel cs (loopTypeOfKw kw) i₁) fun st =>
          olift ((commitState st.1).map (fun a => (a, st.2)))
      else if kw = "break" then
        olift ((commitState .breakState).map (fun a => (a, i₁)))
      else if kw = "continue" then
        olift ((commitState .continueState).map (fun a => (a, i₁)))
      else some (.error .unexpectedResult)
    | (none, i₁) =>
      match scanLoop cs ctx i₁ with
      | .scanErr e => some (.error e)
      | .stringLit j =>
        match parseStaticStr cs j with
        | .error e => some (.error e)
        | .ok (s, j₂) => some (.ok (.staticString s, j₂))
      | .done da name j =>
        if nameIsNumber name then some (.ok (.staticNumber (String.mk name), j))
        else
          match da with
          | .varRefName => olift ((commitState (.varRefState (String.mk name))).map (fun a => (a, j)))
          | .assignment =>
            obind (parseVarAssignment fuel cs (String.mk name) true j) fun st =>
              olift ((commitState st.1).map (fun a => (a, st.2)))
          | .function =>
            obind (parseFunction fuel cs (String.mk name) false j) fun st =>
              olift ((commitState st.1).map (fun a => (a, st.2)))

termination_by structural fuel => fuel

/-- `ParseAction::parse_function` (action.rs lines 347-392): optionally expect
the opening parenthesis, parse the comma-separated argument list, then demand
the closing parenthesis. -/
def parseFunction : Nat → List Char → String → Bool → Nat →
    Option (Except ParsingErrorType (ParseActionState × Nat))
  | 0, _, _, _, _ => none
  | fuel+1, cs, name, checkOpen, i =>
    let openRes : Except ParsingErrorType Nat :=
      if checkOpen then
        match cs[i]? with
        | some c => if c = '(' then .ok (i+1) else .error .unexpectedChar
        | none => .error .unexpectedEOF
      else .ok i
    obind (olift openRes) fun i₁ =>
      obind (parseFunctionLoop fuel cs i₁ []) fun r =>
        match nextWhile cs wsChars r.2 with
        | (some c, i₃) =>
          if c = ')' then some (.ok (.functionCallState name r.1, i₃))
          else some (.error .unexpectedChar)
        | (none, _) => some (.error .unexpectedEOF)

termination_by structural fuel => fuel

/-- The argument loop of `parse_function` (action.rs lines 365-383): skip
whitespace; `')'` or end of input ends the list (cursor stepped back one);
otherwise parse one argument under context `Assignment(",)")`, then continue
only when a `','` follows. -/
def parseFunctionLoop : Nat → List Char → Nat → List Action →
    Option (Except ParsingErrorType (List Action × Nat))
  | 0, _, _, _ => none
  | fuel+1, cs, i, args =>
    match nextWhile cs wsChars i with
    | (some c, i₁) =>
      if c = ')' then some (.ok (args, i₁ - 1))
      else
        obind (startAction fuel cs true (.assignment ",)") i₁) fun a =>
          match nextWhile cs wsChars a.2 with
          | (some c₂, i₃) =>
            if c₂ = ',' then parseFunctionLoop fuel cs i₃ (args ++ [a.1])
            else some (.ok (args ++ [a.1], i₃ - 1))
          | (none, i₃) => some (.ok (args ++ [a.1], i₃ - 1))
    | (none, i₁) => some (.ok (args, i₁ - 1))

termination_by structural fuel => fuel

/-- `ParseAction::parse_var_assignment` (action.rs lines 393-417): optionally
demand an `'='` (skipping whitespace), skip whitespace, and parse the
right-hand side under context `Assignment("")`. -/
def parseVarAssignment : Nat → List Char → String → Bool → Nat →
    Option (Except ParsingErrorType (ParseActionState × Nat))
  | 0, _, _, _, _ => none
  | fuel+1, cs, name, checkEq, i =>
    let eqRes : Except ParsingErrorType Nat :=
      if checkEq then
        match nextWhile cs wsChars i with
        | (some c, i₁) => if c = '=' then .ok i₁ else .error .unexpectedChar
        | (none, _) => .error .unexpectedEOF
      else .ok i
    obind (olift eqRes) fun i₁ =>
      match nextWhile cs wsChars i₁ with
      | (some _, i₂) =>
        obind (startAction fuel cs true (.assignment "") i₂) fun a =>
          some (.ok (.assigmentState name (some a.1), a.2))
      | (none, _) => some (.error .unexpectedEOF)

termination_by structural fuel => fuel

/-- `ParseAction::parse_looper` (action.rs lines 418-451): skip whitespace
(the first non-whitespace character is consumed and its value discarded), then
parse the loop subject: a `while` condition under `Assignment("{")`, a `for`
item name plus the literal `in` plus the source sequence under
`Assignment("{")`, or — for bare `loop` — a `NOOP` subject with the cursor
stepped back one. -/
def parseLooper : Nat → List Char → LoopType → Nat →
    Option (Except ParsingErrorType (ParseActionState × Nat))
  | 0, _, _, _ => none
  | fuel+1, cs, lt, i =>
    let i₁ := (nextWhile cs wsChars i).2
    match lt with
    | .whileL =>
      obind (startAction fuel cs true (.assignment "\x7b") i₁) fun cond =>
        parseLooperTail fuel cs .whileL none cond.1 cond.2
    | .forL =>
      match forNameScan cs (cs.length - i₁) i₁ [] with
      | .error e => some (.error e)
      | .ok (nm, i₂) =>
        match expectStr cs ("in".data) i₂ with
        | .error e => some (.error e)
        | .ok i₃ =>
          match nextWhile cs wsChars i₃ with
          | (none, _) => some (.error .unexpectedEOF)
          | (some _, i₄) =>
            obind (startAction fuel cs true (.assignment "\x7b") i₄) fun lst =>
              parseLooperTail fuel cs .forL (some (String.mk nm)) lst.1 lst.2
    | .loopL => parseLooperTail fuel cs .loopL none .noop (i₁ - 1)

termination_by structural fuel => fuel

/-- Shared tail of `parse_looper` (action.rs lines 453-472): skip whitespace,
require a literal `'{'`, parse the body via the statement-sequence parser and
assemble the loop state. -/
def parseLooperTail : Nat → List Char → LoopType → Option String → Action → Nat →
    Option (Except ParsingErrorType (ParseActionState × Nat))
  | 0, _, _, _, _, _ => none
  | fuel+1, cs, lt, itemName, basedOn, i =>
    match nextWhile cs wsChars i with
    | (some c, i₁) =>
      if c = '\x7b' then
        obind (parseActions fuel cs i₁ []) fun r =>
          some (.ok (assembleLoopState lt itemName basedOn r.1, r.2))
      else some (.error .unexpectedChar)
    | (none, _) => some (.error .unexpectedEOF)

termination_by structural fuel => fuel

/-- `ParseAction::parse_return` (action.rs lines 474-486): skip whitespace; a
`'}'` means a bare return, otherwise the return value is parsed under context
`Assignment("}")`. -/
def parseReturn : Nat → List Char → Nat →
    Option (Except ParsingErrorType (ParseActionState × Nat))
  | 0, _, _ => none
  | fuel+1, cs, i =>
    match nextWhile cs wsChars i with
    | (some c, i₁) =>
      if c = '\x7d' then some (.ok (.retState none, i₁))
      else
        obind (startAction fuel cs true (.assignment "\x7d") i₁) fun a =>
          some (.ok (.retState (some a.1), a.2))
    | (none, _) => some (.error .unexpectedEOF)

termination_by structural fuel => fuel

/-- Modelled from the spec: the external statement-sequence parser
`ParseActions` (§6), entered just after an opening `'{'`: repeatedly skip
whitespace and invoke the action parser under `ActionInBody` context until the
closing `'}'` is consumed, collecting the ordered action sequence. -/
def parseActions : Nat → List Char → Nat → List Action →
    Option (Except ParsingErrorType (List Action × Nat))
  | 0, _, _, _ => none
  | fuel+1, cs, i, acc =>
    match nextWhile cs wsChars i with
    | (none, _) => some (.error .unexpectedEOF)
    | (some c, i₁) =>
      if c = '\x7d' then some (.ok (acc, i₁))
      else
        obind (startAction fuel cs true .actionInBody i₁) fun a =>
          parseActions fuel cs a.2 (acc ++ [a.1])

termination_by structural fuel => fuel

/-- Modelled from the spec: the external variable-declaration parser
`parse_var` (§4.3 step 2, §6): scan the variable name, require an `'='`
(declared-type annotations are omitted — no claim exercises them), and parse
the initializer as a full standalone action; a declaration without
initializer is a hard parse error. -/
def parseVar : Nat → List Char → VarType → Nat →
    Option (Except ParsingErrorType (Action × Nat))
  | 0, _, _, _ => none
  | fuel+1, cs, vt, i =>
    match nextWhile cs wsChars i with
    | (none, _) => some (.error .unexpectedEOF)
    | (some c, i₁) =>
      if legalNameChar c then
        let r := varNameScan cs (cs.length - i₁) i₁ [c]
        match nextWhile cs wsChars r.2 with
        | (some c₂, i₃) =>
          if c₂ = '=' then
            match nextWhile cs wsChars i₃ with
            | (none, _) => some (.error .unexpectedEOF)
            | (some _, i₄) =>
              obind (startAction fuel cs true (.assignment "") i₄) fun a =>
                some (.ok (.varDecl (String.mk r.1) vt none a.1, a.2))
          else some (.error .unexpectedChar)
        | (none, _) => some (.error .unexpectedEOF)
      else some (.error .unexpectedChar)


termination_by structural fuel => fuel
end

/-- C1: the claim states that whenever `try_match` returns no match the cursor
index is unchanged.  The code only rewinds by `char_count`, which excludes the
character consumed in the round that emptied the candidate set: on input
`"xyz"` with candidate table `[("for", "} \t\n")]` the call starts at index 0,
consumes `'x'`, fails, and leaves the cursor at index 1. -/
theorem claim_c1 :
    tryMatch [("for", "\x7d \t\n")] ("xyz".data) 0 = (none, 1) := by
  rfl

/-- C2: refuted by the code.  The keyword table `detect` passes to `try_match`
in `ActionInBody` context has only seven entries — `continue` is absent even
though `detect`'s dispatch (action.rs line 258) has an arm for it — so the
statement `continue }` falls through to the generic scan and (because of the
matcher's under-rewind) is committed as `VarRef "ontinue"`, not as the
`Continue` leaf action. -/
theorem claim_c2 :
    bodyKeywordTable.map Prod.fst =
      ["const", "let", "return", "loop", "while", "for", "break"] ∧
    startAction 30 ("continue \x7d".data) false .actionInBody 0 =
      some (.ok (.varRef "ontinue", 9)) := by
  exact ⟨rfl, rfl⟩

/-- C3: confirmed.  `commit_state` refuses an assignment state whose value
action is absent with the hard error `Custom "Missing variable assignment"`,
producing no `Assignment` node; with the value present it commits the
`Assignment` node built from the state. -/
theorem claim_c3 :
    ∀ (name : String),
      commitState (.assigmentState name none) =
        .error (.custom "Missing variable assignment") ∧
      ∀ (a : Action),
        commitState (.assigmentState name (some a)) = .ok (.assigment name a) :=
  fun _ => ⟨rfl, fun _ => rfl⟩

/-- C6: confirmed.  Parsing `foo(a, b)` as an action (expression context, as
when it stands as an assignment value or argument) yields a `FunctionCall`
named `foo` with exactly the two arguments `VarRef "a"` and `VarRef "b"` in
order; the arguments are parsed by `parseFunctionLoop`, which hands each
recursive `startAction` the context `Assignment(",)")`. -/
theorem claim_c6 :
    startAction 30 ("foo(a, b)".data) false (.assignment "") 0 =
      some (.ok (.functionCall "foo" [.varRef "a", .varRef "b"], 9)) := by
  rfl

/-- C7: confirmed.  Parsing `loop foo { }` as a body statement fails with
`UnexpectedChar`: after the `loop` keyword `parse_looper` requires the first
non-whitespace character to be `'{'`, so a bare `loop` admits no subject
token before its body. -/
theorem claim_c7 :
    startAction 30 ("loop foo \x7b \x7d".data) false .actionInBody 0 =
      some (.error .unexpectedChar) := by
  rfl

/-- C8: refuted by the code.  In `ActionInBody` context, `foo = bar` fails
with `UnexpectedChar`: the generic scan already consumed the `'='` when it
chose the assignment branch, yet `detect` calls `parse_var_assignment` with
`check_for_equal_sign = true` (action.rs line 337), which demands a second
`'='` and instead meets `'b'`.  (The keyword matcher's under-rewind has also
truncated the target name to `"oo"` by this point.)  The claimed
`Assignment("foo", VarRef "bar")` is never produced. -/
theorem claim_c8 :
    startAction 30 ("foo = bar".data) false .actionInBody 0 =
      some (.error .unexpectedChar) := by
  rfl

/-- C9: confirmed.  The default error offset of `custom_error` is
`self.index - 1`; the subtraction on the unsigned index is defined exactly
when at least one character has been consumed, and underflows (modelled as
`none`) when the cursor index is 0. -/
theorem claim_c9 :
    resolveErrorIndex none 0 = none ∧
    ∀ (index : Nat), (resolveErrorIndex none index).isSome ↔ 1 ≤ index := by
  refine ⟨rfl, fun index => ?_⟩
  cases index with
  | zero => simp [resolveErrorIndex]
  | succ n => simp [resolveErrorIndex]

theorem parseNothingAux_no_f {F : Type}
    (fnP : List Char → Except ParsingErrorType (F × List Char)) :
    ∀ (cs : List Char) (fns : List F), 'f' ∉ cs →
      parseNothingAux fnP cs.length cs fns = some (.ok fns) := by
  intro cs
  induction cs with
  | nil => intro fns _; rfl
  | cons c rest ih =>
    intro fns h
    have hc : ¬(c = 'f') := fun hh => h (hh ▸ List.mem_cons_self c rest)
    show parseNothingAux fnP (rest.length + 1) (c :: rest) fns = some (.ok fns)
    simp only [parseNothingAux, if_neg hc]
    exact ih fns (fun hm => h (List.mem_cons_of_mem c hm))

theorem parseNothingAux_f_not_n {F : Type}
    (fnP : List Char → Except ParsingErrorType (F × List Char)) :
    ∀ (pre : List Char) (c : Char) (rest : List Char) (fns : List F) (fuel : Nat),
      'f' ∉ pre → c ≠ 'n' → pre.length < fuel →
      parseNothingAux fnP fuel (pre ++ 'f' :: c :: rest) fns =
        some (.error .unexpectedChar) := by
  intro pre
  induction pre with
  | nil =>
    intro c rest fns fuel _ hc hlen
    obtain ⟨k, rfl⟩ : ∃ k, fuel = k + 1 := ⟨fuel - 1, by omega⟩
    show parseNothingAux fnP (k + 1) ('f' :: c :: rest) fns = some (.error .unexpectedChar)
    simp [parseNothingAux, hc]
  | cons p ps ih =>
    intro c rest fns fuel h hc hlen
    obtain ⟨k, rfl⟩ : ∃ k, fuel = k + 1 := ⟨fuel - 1, by omega⟩
    have hp : ¬(p = 'f') := fun hh => h (hh ▸ List.mem_cons_self p ps)
    show parseNothingAux fnP (k + 1) (p :: (ps ++ 'f' :: c :: rest)) fns =
      some (.error .unexpectedChar)
    simp only [parseNothingAux, if_neg hp]
    exact ih c rest fns k (fun hm => h (List.mem_cons_of_mem p hm)) hc
      (by simp only [List.length_cons] at hlen; omega)

/-- C10: confirmed.  The top-level scan `parse_nothing` ignores every
character except `'f'`: an input containing no `'f'` at all parses
successfully, contributing nothing to the function list, regardless of what
the external function parser would do; and an input whose first `'f'` is
followed by anything other than `'n'` fails with `UnexpectedChar` (so a
top-level `let foo = 0` is rejected at the `'f'` of `foo`). -/
theorem claim_c10 :
    (∀ (F : Type) (fnP : List Char → Except ParsingErrorType (F × List Char))
        (cs : List Char), 'f' ∉ cs →
        parseNothingRun fnP cs = some (.ok ([] : List F))) ∧
    (∀ (F : Type) (fnP : List Char → Except ParsingErrorType (F × List Char))
        (pre : List Char) (c : Char) (rest : List Char), 'f' ∉ pre → c ≠ 'n' →
        parseNothingRun fnP (pre ++ 'f' :: c :: rest) =
          some (.error .unexpectedChar)) := by
  constructor
  · intro F fnP cs h
    exact parseNothingAux_no_f fnP cs [] h
  · intro F fnP pre c rest h hc
    show parseNothingAux fnP (pre ++ 'f' :: c :: rest).length (pre ++ 'f' :: c :: rest) []
      = some (.error .unexpectedChar)
    exact parseNothingAux_f_not_n fnP pre c rest [] _ h hc
      (by simp only [List.length_append, List.length_cons]; omega)

/-- Witness for C10 at the concrete inputs `const bar = 0` (no `fn`, accepted
with an empty function list) and `let foo = 0` (rejected at the `'f'` of
`foo`, which is followed by `'o'`). -/
theorem claim_c10_witness :
    parseNothingRun (fun _ => (.error .unexpectedResult : Except ParsingErrorType (Unit × List Char)))
        ("const bar = 0".data) = some (.ok []) ∧
    parseNothingRun (fun _ => (.error .unexpectedResult : Except ParsingErrorType (Unit × List Char)))
        (("let ".data) ++ 'f' :: 'o' :: ("o = 0".data)) = some (.error .unexpectedChar) :=
  ⟨claim_c10.1 Unit _ ("const bar = 0".data) (by decide),
   claim_c10.2 Unit _ ("let ".data) 'o' ("o = 0".data) (by decide) (by decide)⟩

theorem firstScan_no_newline_all (u : Nat) (seg : List Char) :
    ∀ (rest : List Char) (i ln col : Nat) (prev : Option (List Char)) (cur : List Char),
      '\n' ∉ seg → i + seg.length ≤ u →
      firstScan u (seg ++ rest) i ln col prev cur =
        firstScan u rest (i + seg.length) ln
          (seg.foldl (fun co c => if c = '\r' then co else co + (if c = '\t' then 2 else 1)) col)
          prev (cur ++ seg.filter (fun c => c ≠ '\r')) := by
  induction seg with
  | nil =>
    intro rest i ln col prev cur _ _
    simp
  | cons c s ih =>
    intro rest i ln col prev cur h hle
    have hne : ¬(i = u) := by
      simp only [List.length_cons] at hle
      omega
    have hcn : ¬(c = '\n') := fun hh => h (hh ▸ List.mem_cons_self c s)
    have hs : '\n' ∉ s := fun hm => h (List.mem_cons_of_mem c hm)
    have hle₂ : (i + 1) + s.length ≤ u := by
      simp only [List.length_cons] at hle
      omega
    simp only [List.cons_append, firstScan, List.append_eq, if_neg hne, if_neg hcn]
    by_cases hcr : c = '\r'
    · rw [if_pos hcr, ih rest (i+1) ln col prev cur hs hle₂]
      simp only [List.length_cons, List.foldl_cons, List.filter_cons, hcr]
      have hi : i + (s.length + 1) = i + 1 + s.length := by omega
      simp [hi]
    · rw [if_neg hcr,
        ih rest (i+1) ln (col + (if c = '\t' then 2 else 1)) prev (cur ++ [c]) hs hle₂]
      simp only [List.length_cons, List.foldl_cons, List.filter_cons]
      have hi : i + (s.length + 1) = i + 1 + s.length := by omega
      have hfc : (fun x => decide (x ≠ '\r')) c = true := by
        simp [hcr]
      simp [hi, hcr, List.append_assoc]

theorem firstScan_no_newline_stop (u : Nat) (seg : List Char) :
    ∀ (i ln col : Nat) (prev : Option (List Char)) (cur : List Char),
      '\n' ∉ seg → i ≤ u → u ≤ i + seg.length →
      (firstScan u seg i ln col prev cur).1 = ln ∧
      (firstScan u seg i ln col prev cur).2.2.1 = prev := by
  induction seg with
  | nil =>
    intro i ln col prev cur _ _ _
    exact ⟨rfl, rfl⟩
  | cons c s ih =>
    intro i ln col prev cur h h1 h2
    have hs : '\n' ∉ s := fun hm => h (List.mem_cons_of_mem c hm)
    by_cases hiu : i = u
    · simp [firstScan, hiu]
    · have hcn : ¬(c = '\n') := fun hh => h (hh ▸ List.mem_cons_self c s)
      have h1₂ : i + 1 ≤ u := by omega
      have h2₂ : u ≤ (i + 1) + s.length := by
        simp only [List.length_cons] at h2
        omega
      simp only [firstScan, List.append_eq, if_neg hiu, if_neg hcn]
      by_cases hcr : c = '\r'
      · rw [if_pos hcr]
        exact ih (i+1) ln col prev cur hs h1₂ h2₂
      · rw [if_neg hcr]
        exact ih (i+1) ln (col + (if c = '\t' then 2 else 1)) prev (cur ++ [c]) hs h1₂ h2₂

/-- C4: confirmed.  For a two-line buffer `l1 ++ '\n' :: l2` (neither line
containing a newline) and any error offset that falls within line 2, the
diagnostic built by the error reporter carries line number 2 and a
previous-line string equal to line 1 with its carriage returns removed. -/
theorem claim_c4 :
    ∀ (l1 l2 : List Char) (k : Nat) (et : ParsingErrorType),
      '\n' ∉ l1 → '\n' ∉ l2 → k ≤ l2.length →
      (customErrorCore (l1 ++ '\n' :: l2) (l1.length + 1 + k) et).location.y = 2 ∧
      (customErrorCore (l1 ++ '\n' :: l2) (l1.length + 1 + k) et).prevLine =
        some (String.mk (l1.filter (fun c => c ≠ '\r'))) := by
  intro l1 l2 k et h1 h2 hk
  have hA := firstScan_no_newline_all (l1.length + 1 + k) l1 ('\n' :: l2) 0 1 1 none [] h1
    (by omega)
  have hstep : ∀ (col : Nat) (cur : List Char),
      firstScan (l1.length + 1 + k) ('\n' :: l2) (0 + l1.length) 1 col none ([] ++ cur) =
        firstScan (l1.length + 1 + k) l2 (0 + l1.length + 1) 2 0 (some cur) [] := by
    intro col cur
    have hne : ¬(0 + l1.length = l1.length + 1 + k) := by omega
    simp [firstScan, hne]
    intro hcontra
    exact absurd hcontra (by omega)
  have hB := firstScan_no_newline_stop (l1.length + 1 + k) l2 (0 + l1.length + 1) 2 0
    (some (l1.filter (fun c => c ≠ '\r'))) [] h2 (by omega) (by omega)
  constructor
  · show (firstScan (l1.length + 1 + k) (l1 ++ '\n' :: l2) 0 1 1 none []).1 = 2
    rw [hA, hstep]
    exact hB.1
  · show ((firstScan (l1.length + 1 + k) (l1 ++ '\n' :: l2) 0 1 1 none []).2.2.1).map
        (fun bs => String.mk bs) = some (String.mk (l1.filter (fun c => c ≠ '\r')))
    rw [hA, hstep, hB.2]
    rfl

/-- Witness for C4 at the concrete two-line buffer `a\r b \n c d` with the
error offset on the second character of line 2. -/
theorem claim_c4_witness :
    (customErrorCore (("a\rb".data) ++ '\n' :: ("cd".data)) (("a\rb".data).length + 1 + 1)
        .unexpectedEOF).location.y = 2 ∧
    (customErrorCore (("a\rb".data) ++ '\n' :: ("cd".data)) (("a\rb".data).length + 1 + 1)
        .unexpectedEOF).prevLine =
      some (String.mk (("a\rb".data).filter (fun c => c ≠ '\r'))) :=
  claim_c4 ("a\rb".data) ("cd".data) 1 .unexpectedEOF (by decide) (by decide) (by decide)

theorem tryMatchLoopAux_cons (sm : List (String × String)) (cs : List Char) (k : Nat)
    (vec : List String) (cc i : Nat) (c : Char) (h : cs[i]? = some c) :
    tryMatchLoopAux sm cs (k+1) vec cc i =
      match tryMatchStep sm cs (i+1) cc c vec with
      | .inl m => (some m, i + 1)
      | .inr [] => (none, (i + 1) - cc)
      | .inr (v :: vs) => tryMatchLoopAux sm cs k (v :: vs) (cc + 1) (i + 1) := by
  rw [tryMatchLoopAux, h]

/-- C5: confirmed.  First part: for every continuation character outside the
suffix set of `for`, the keyword match against the full body keyword table
fails on `for` followed by that character (whatever follows), so such an
identifier is never classified as the keyword.  Second part: on the concrete
identifier `formation` (body context) the parse falls through to the generic
scan and commits a plain variable reference — though, because of the
matcher's under-rewind (see C1), the reference keeps only `ormation` of the
scanned token. -/
theorem claim_c5 :
    (∀ (c : Char) (rest : List Char), c ∉ (("\x7d \t\n").data) →
      (tryMatch bodyKeywordTable ('f' :: 'o' :: 'r' :: c :: rest) 0).1 = none) ∧
    startAction 30 ("formation \x7d".data) false .actionInBody 0 =
      some (.ok (.varRef "ormation", 10)) := by
  constructor
  · intro c rest hc
    have h3 : tryMatchStep bodyKeywordTable ('f' :: 'o' :: 'r' :: c :: rest) 3 2 'r'
        ["for"] = .inr [] := by
      simp only [tryMatchStep, lookupLast, bodyKeywordTable]
      simp [hc]
      decide
    have e3 : tryMatchLoopAux bodyKeywordTable ('f' :: 'o' :: 'r' :: c :: rest)
        (rest.length + 1 + 1) ["for"] 2 2 = (none, 1) := by
      rw [tryMatchLoopAux_cons bodyKeywordTable ('f' :: 'o' :: 'r' :: c :: rest)
        (rest.length + 1) ["for"] 2 2 'r' rfl, h3]
    have e2 : tryMatchLoopAux bodyKeywordTable ('f' :: 'o' :: 'r' :: c :: rest)
        (rest.length + 2 + 1) ["for"] 1 1 = (none, 1) := by
      rw [tryMatchLoopAux_cons bodyKeywordTable ('f' :: 'o' :: 'r' :: c :: rest)
        (rest.length + 2) ["for"] 1 1 'o' rfl]
      exact e3
    have e1 : tryMatchLoopAux bodyKeywordTable ('f' :: 'o' :: 'r' :: c :: rest)
        (rest.length + 3 + 1) ["const", "let", "return", "loop", "while", "for", "break"]
        0 0 = (none, 1) := by
      rw [tryMatchLoopAux_cons bodyKeywordTable ('f' :: 'o' :: 'r' :: c :: rest)
        (rest.length + 3) ["const", "let", "return", "loop", "while", "for", "break"]
        0 0 'f' rfl]
      exact e2
    show (tryMatchLoopAux bodyKeywordTable ('f' :: 'o' :: 'r' :: c :: rest)
        (('f' :: 'o' :: 'r' :: c :: rest).length - 0)
        ["const", "let", "return", "loop", "while", "for", "break"] 0 0).1 = none
    have hlen : ('f' :: 'o' :: 'r' :: c :: rest).length - 0 = rest.length + 3 + 1 := by
      simp
    rw [hlen, e1]
  · rfl

/-- Witness for C5 at the concrete continuation character `'m'` (as in
`formation`), which lies outside the suffix set `"} \t\n"` of `for`. -/
theorem claim_c5_witness :
    (tryMatch bodyKeywordTable ('f' :: 'o' :: 'r' :: 'm' :: ("ation".data)) 0).1 = none :=
  claim_c5.1 'm' ("ation".data) (by decide)

end GPL
